import Mathlib

/-!
Shallow embedding of `pkg/continuoustest/client.go` (Mimir continuous-test
client): the write path (`Client.WriteSeries`, `Client.sendWriteRequest`),
the read path (`Client.QueryRange`), client construction (`NewClient`) and
the tenant-scoped round tripper (`clientRoundTripper.RoundTrip`).

Modelling conventions:
- Byte sequences are `List Nat` token streams.
- The protobuf codec (`proto.Marshal` of `prompb.WriteRequest`) and the
  snappy codec (`snappy.Encode`) are external libraries, not repository
  code; they are modelled as concrete invertible encode/decode pairs, which
  captures exactly the property the client relies on (lossless round
  tripping of the batch through the wire format).
- The network, serialization failures, and request-building failures are
  modelled by an oracle `Nat → ReqOutcome` giving, for the i-th request of
  one `WriteSeries` call, the outcome the Go runtime would produce:
  a `proto.Marshal` error, an `http.NewRequestWithContext` error, a
  transport error from `writeClient.Do`, or an HTTP response with a status
  code, a body, and a flag telling whether reading the body succeeds.
- HTTP statuses are `Nat` (Go `int`, non-negative for real responses);
  Go's truncating integer division `StatusCode/100` agrees with `Nat`
  division there.  `WriteBatchSize` is a Go `int` and is kept as `Int`.
- Timeouts and contexts are real-time concerns and are not modelled; they
  do not affect any of the verified data-flow properties.
- The Go `for len(series) > 0` loop is embedded with explicit fuel:
  `WriteOut.diverge` marks fuel exhaustion (the Go loop spins without
  consuming input), and `WriteOut.panicked` marks a Go runtime panic
  (`series[0:end]` with negative `end`, which happens when
  `WriteBatchSize < 0`).
-/

namespace ContinuousTest

abbrev Bytes := List Nat

/-- Go `util_math.Min` on `int` (from `pkg/util/math`): the smaller of two. -/
def minInt (a b : Int) : Int := if a < b then a else b

/-- One `prompb.Sample`: a value (the 64-bit payload, treated opaquely) and a
timestamp. -/
structure Sample where
  value : Int
  timestamp : Int
deriving DecidableEq, Repr

/-- One `prompb.TimeSeries`: a label set and its samples. -/
structure TimeSeries where
  labels : List (String × String)
  samples : List Sample
deriving DecidableEq, Repr

/-- `prompb.WriteRequest`: the envelope holding one batch of series. -/
structure WriteRequest where
  timeseries : List TimeSeries
deriving DecidableEq, Repr

/-! ### Wire codecs (modelled invertible encodings) -/

def encodeString (s : String) : Bytes := s.data.length :: s.data.map Char.toNat

def encodeInt (i : Int) : Bytes := [if i < 0 then 1 else 0, i.natAbs]

def encodeLabel (p : String × String) : Bytes := encodeString p.1 ++ encodeString p.2

def encodeSample (s : Sample) : Bytes := encodeInt s.value ++ encodeInt s.timestamp

def encodeListOf (enc : α → Bytes) (l : List α) : Bytes :=
  l.length :: (l.map enc).flatten

def encodeTimeSeries (ts : TimeSeries) : Bytes :=
  encodeListOf encodeLabel ts.labels ++ encodeListOf encodeSample ts.samples

/-- Modelled `proto.Marshal` of a `prompb.WriteRequest`. -/
def protoMarshal (r : WriteRequest) : Bytes :=
  encodeListOf encodeTimeSeries r.timeseries

def decodeString : Bytes → Option (String × Bytes)
  | [] => none
  | n :: rest =>
    if n ≤ rest.length then
      some (String.mk ((rest.take n).map Char.ofNat), rest.drop n)
    else none

def decodeInt : Bytes → Option (Int × Bytes)
  | s :: m :: rest => some ((if s = 1 then -(m : Int) else (m : Int)), rest)
  | _ => none

def decodeLabel (bs : Bytes) : Option ((String × String) × Bytes) :=
  match decodeString bs with
  | none => none
  | some (n, bs1) =>
    match decodeString bs1 with
    | none => none
    | some (v, bs2) => some ((n, v), bs2)

def decodeSample (bs : Bytes) : Option (Sample × Bytes) :=
  match decodeInt bs with
  | none => none
  | some (v, bs1) =>
    match decodeInt bs1 with
    | none => none
    | some (t, bs2) => some (⟨v, t⟩, bs2)

def decodeN (dec : Bytes → Option (α × Bytes)) : Nat → Bytes → Option (List α × Bytes)
  | 0, bs => some ([], bs)
  | n+1, bs =>
    match dec bs with
    | none => none
    | some (a, bs1) =>
      match decodeN dec n bs1 with
      | none => none
      | some (as, bs2) => some (a :: as, bs2)

def decodeListOf (dec : Bytes → Option (α × Bytes)) : Bytes → Option (List α × Bytes)
  | [] => none
  | n :: bs => decodeN dec n bs

def decodeTimeSeries (bs : Bytes) : Option (TimeSeries × Bytes) :=
  match decodeListOf decodeLabel bs with
  | none => none
  | some (ls, bs1) =>
    match decodeListOf decodeSample bs1 with
    | none => none
    | some (ss, bs2) => some (⟨ls, ss⟩, bs2)

/-- Modelled protobuf decoding of a full `prompb.WriteRequest` message. -/
def protoUnmarshal (bs : Bytes) : Option WriteRequest :=
  match decodeListOf decodeTimeSeries bs with
  | some (l, []) => some ⟨l⟩
  | _ => none

/-- Modelled `snappy.Encode`: a lossless block coding (length-framed here). -/
def snappyEncode (d : Bytes) : Bytes := d.length :: d

/-- Modelled snappy decompression, inverse of `snappyEncode`. -/
def snappyDecode : Bytes → Option Bytes
  | [] => none
  | n :: rest => if rest.length = n then some rest else none

/-- Decompress and protobuf-decode one write-request body, yielding the batch
of series it carries. -/
def decodeRequestBody (bs : Bytes) : Option (List TimeSeries) :=
  match snappyDecode bs with
  | none => none
  | some d =>
    match protoUnmarshal d with
    | none => none
    | some r => some r.timeseries

/-! ### HTTP model and client configuration -/

/-- An HTTP response as the write path sees it: status code and body. -/
structure HttpResponse where
  status : Nat
  body : Bytes
deriving DecidableEq, Repr

/-- An outbound HTTP request as built by `sendWriteRequest`. -/
structure HttpRequest where
  method : String
  url : String
  headers : List (String × String)
  body : Bytes
deriving DecidableEq, Repr

/-- `ClientConfig` from `client.go`.  `flagext.URLValue` with a nil `URL` is
`none`; a set URL is `some s` where `s` is its `String()` rendering.
Timeouts are real-time quantities, carried but not interpreted. -/
structure ClientConfig where
  tenantID : String
  writeBaseEndpoint : Option String
  writeBatchSize : Int
  writeTimeout : Int
  readBaseEndpoint : Option String
  readTimeout : Int
deriving DecidableEq, Repr

/-- `flagext.URLValue.String()`: the empty string when the URL is nil. -/
def endpointString : Option String → String
  | none => ""
  | some u => u

/-- `maxErrMsgLen` from `client.go`. -/
def maxErrMsgLen : Nat := 256

/-- Outcome of one attempted write request, as decided by the environment
(the Go runtime and the network): `proto.Marshal` fails, building the
`http.Request` fails, `writeClient.Do` fails at transport level, or a
response arrives with a status, a body, and whether reading the body
(`io.ReadAll` of the truncated reader) succeeds. -/
inductive ReqOutcome
  | marshalErr
  | buildErr
  | transportErr
  | response (status : Nat) (body : Bytes) (bodyReadOk : Bool)
deriving DecidableEq, Repr

/-- The error values `sendWriteRequest` can return, with the data the Go
error message embeds. -/
inductive WriteError
  | marshalError
  | buildError
  | transportError
  | bodyReadError (status : Nat)
  | httpError (status : Nat) (truncatedBody : Bytes)
deriving DecidableEq, Repr

/-- The headers set on a push request and the URL it targets, as in
`sendWriteRequest`: POST to `<write base>/api/v1/push` with the snappy
compressed protobuf body. -/
def buildWriteHttpRequest (cfg : ClientConfig) (req : WriteRequest) : HttpRequest :=
  { method := "POST"
    url := endpointString cfg.writeBaseEndpoint ++ "/api/v1/push"
    headers := [("Content-Encoding", "snappy"),
                ("Content-Type", "application/x-protobuf"),
                ("User-Agent", "mimir-continuous-test"),
                ("X-Prometheus-Remote-Write-Version", "0.1.0")]
    body := snappyEncode (protoMarshal req) }

/-- What one `sendWriteRequest` call returns: the status code and the error
(`none` on success). -/
structure SendOutput where
  status : Nat
  error : Option WriteError
deriving DecidableEq, Repr

/-- `Client.sendWriteRequest`: marshal, compress, build the request, send
it, and classify the response (2xx is success; otherwise read up to
`maxErrMsgLen` bytes of the body into the error).  The second component is
the request handed to `writeClient.Do`, when one was (`none` if marshaling
or request building failed before the send). -/
def sendWriteRequest (cfg : ClientConfig) (o : ReqOutcome) (req : WriteRequest) :
    SendOutput × Option HttpRequest :=
  match o with
  | .marshalErr => (⟨0, some .marshalError⟩, none)
  | .buildErr => (⟨0, some .buildError⟩, none)
  | .transportErr => (⟨0, some .transportError⟩, some (buildWriteHttpRequest cfg req))
  | .response s b readOk =>
    if s / 100 ≠ 2 then
      if readOk then
        (⟨s, some (.httpError s (b.take maxErrMsgLen))⟩, some (buildWriteHttpRequest cfg req))
      else
        (⟨s, some (.bodyReadError s)⟩, some (buildWriteHttpRequest cfg req))
    else
      (⟨s, none⟩, some (buildWriteHttpRequest cfg req))

/-- Result of a whole `WriteSeries` call.  `diverge` marks exhaustion of the
fuel (the Go loop iterates without consuming input, i.e. never finishes);
`panicked` marks the Go runtime panic raised by `series[0:end]` when
`end < 0`.  `done` carries the returned status code, the returned error,
and the requests handed to the transport, in order. -/
inductive WriteOut
  | diverge
  | panicked
  | done (status : Nat) (error : Option WriteError) (sent : List HttpRequest)
deriving DecidableEq, Repr

/-- The `for len(series) > 0` loop of `Client.WriteSeries`, fueled.  `idx`
numbers the requests of this call (feeding the outcome oracle), `last` is
`lastStatusCode`. -/
def writeSeriesFuel (cfg : ClientConfig) (oracle : Nat → ReqOutcome) :
    Nat → Nat → List TimeSeries → Nat → WriteOut
  | _, _, [], last => .done last none []
  | 0, _, _ :: _, _ => .diverge
  | fuel+1, idx, x :: xs, _ =>
    let e := minInt ((x :: xs).length : Int) cfg.writeBatchSize
    if e < 0 then .panicked
    else
      let batch := (x :: xs).take e.toNat
      let rest := (x :: xs).drop e.toNat
      let out := sendWriteRequest cfg (oracle idx) ⟨batch⟩
      match out.1.error with
      | some err => .done out.1.status (some err) out.2.toList
      | none =>
        match writeSeriesFuel cfg oracle fuel (idx+1) rest out.1.status with
        | .diverge => .diverge
        | .panicked => .panicked
        | .done st er sent => .done st er (out.2.toList ++ sent)

/-- `Client.WriteSeries`: run the batching loop from the start with
`lastStatusCode = 0`.  Fuel `series.length` suffices whenever
`WriteBatchSize ≥ 1`, since every iteration then consumes at least one
series. -/
def WriteSeries (cfg : ClientConfig) (oracle : Nat → ReqOutcome)
    (series : List TimeSeries) : WriteOut :=
  writeSeriesFuel cfg oracle series.length 0 series 0

/-- `ceil(n / b)` on naturals. -/
def ceilDiv (n b : Nat) : Nat := (n + b - 1) / b

/-- The i-th batch the loop carves out of `series` with batch size `b`:
`series[i*b : min((i+1)*b, len)]`. -/
def chunkAt (series : List TimeSeries) (b : Nat) (i : Nat) : List TimeSeries :=
  (series.drop (i * b)).take b

/-- Whether an outcome is a 2xx response (`StatusCode/100 == 2`). -/
def isSuccess : ReqOutcome → Bool
  | .response s _ _ => s / 100 == 2
  | _ => false

/-- The status code a response outcome carries (0 for non-responses). -/
def outcomeStatus : ReqOutcome → Nat
  | .response s _ _ => s
  | _ => 0

/-! ### Read path (`Client.QueryRange`) -/

/-- `model.ValueType` of the prometheus common library. -/
inductive ValueType
  | valNone | valScalar | valVector | valMatrix | valString
deriving DecidableEq, Repr

/-- One `model.SampleStream`: a metric label set and (timestamp, value)
pairs, values again treated as opaque 64-bit payloads. -/
structure SampleStream where
  metric : List (String × String)
  values : List (Int × Int)
deriving DecidableEq, Repr

/-- `model.Matrix`. -/
abbrev Matrix := List SampleStream

/-- A `model.Value` as the interface exposes it: the declared type returned
by `Type()` and the result of the Go type assertion `value.(model.Matrix)`
(`none` when the assertion fails). -/
structure ModelValue where
  declaredType : ValueType
  asMatrix : Option Matrix
deriving DecidableEq, Repr

/-- Outcome of the underlying `readClient.QueryRange` call: a client/server
error, or a returned value. -/
inductive QueryOutcome
  | backendErr
  | ok (v : ModelValue)
deriving DecidableEq, Repr

/-- The errors `Client.QueryRange` returns. -/
inductive QueryError
  | backendErr
  | expectingMatrix
  | castFailed
deriving DecidableEq, Repr

/-- `Client.QueryRange`: propagate backend errors, reject any declared type
other than matrix, reject a failing type assertion, and return the matrix
unchanged otherwise. -/
def QueryRange (o : QueryOutcome) : Except QueryError Matrix :=
  match o with
  | .backendErr => .error .backendErr
  | .ok v =>
    if v.declaredType ≠ .valMatrix then .error .expectingMatrix
    else
      match v.asMatrix with
      | none => .error .castFailed
      | some m => .ok m

/-! ### Construction (`NewClient`) -/

/-- The constructed client.  `api.NewClient` is modelled as succeeding: its
only failure mode is an unparseable address, and the address it receives is
the `String()` of an already parsed URL. -/
structure Client where
  cfg : ClientConfig
deriving DecidableEq, Repr

/-- `NewClient`: reject a nil write URL, then a nil read URL, with the
exact error messages of the source; otherwise produce the client. -/
def NewClient (cfg : ClientConfig) : Except String Client :=
  if cfg.writeBaseEndpoint = none then .error "the write endpoint has not been set"
  else if cfg.readBaseEndpoint = none then .error "the read endpoint has not been set"
  else .ok { cfg := cfg }

/-! ### Tenant round tripper -/

/-- Go `http.Header.Set`: replace every value previously associated with the
key by the single new value. -/
def headerSet (hs : List (String × String)) (k v : String) : List (String × String) :=
  (k, v) :: hs.filter (fun p => p.1 ≠ k)

/-- Header lookup: the first value the request carries for a key. -/
def headerGet : List (String × String) → String → Option String
  | [], _ => none
  | (a, b) :: t, k => if a = k then some b else headerGet t k

/-- A transport-level error from the wrapped round tripper (opaque). -/
inductive TransportError
  | err
deriving DecidableEq, Repr

/-- `clientRoundTripper`: the tenant ID it stamps on requests. -/
structure clientRoundTripper where
  tenantID : String
deriving DecidableEq, Repr

/-- `clientRoundTripper.RoundTrip`: set `X-Scope-OrgID` and delegate to the
wrapped transport, returning its result unchanged. -/
def RoundTrip (rt : clientRoundTripper)
    (delegate : HttpRequest → Except TransportError HttpResponse)
    (req : HttpRequest) : Except TransportError HttpResponse :=
  delegate { req with headers := headerSet req.headers "X-Scope-OrgID" rt.tenantID }

/-! ### Concrete inputs used by the witnesses -/

/-- A sample concrete configuration: batch size 2, both endpoints set. -/
def cfgEx : ClientConfig :=
  { tenantID := "tenant-1"
    writeBaseEndpoint := some "http://write"
    writeBatchSize := 2
    writeTimeout := 5
    readBaseEndpoint := some "http://read"
    readTimeout := 30 }

/-- `cfgEx` with batch size 0. -/
def cfgExZero : ClientConfig := { cfgEx with writeBatchSize := 0 }

/-- `cfgEx` with batch size -1. -/
def cfgExNeg : ClientConfig := { cfgEx with writeBatchSize := -1 }

/-- A concrete time series. -/
def tsEx (n : Nat) : TimeSeries :=
  { labels := [("__name__", "mimir_continuous_test_sine_wave")]
    samples := [⟨(n : Int), (n : Int)⟩] }

/-- Five concrete series, as in the spec's worked example. -/
def seriesEx : List TimeSeries := [tsEx 0, tsEx 1, tsEx 2, tsEx 3, tsEx 4]

/-- An oracle answering every request with `204`, empty body. -/
def oracleOk : Nat → ReqOutcome := fun _ => .response 204 [] true

/-- An oracle failing the second request (index 1) with a 500 and a
one-byte body, succeeding otherwise with 200. -/
def oracleFailAt1 : Nat → ReqOutcome := fun i =>
  if i = 1 then .response 500 [7] true else .response 200 [] true

/-- An oracle whose second request dies at transport level. -/
def oracleTransportAt1 : Nat → ReqOutcome := fun i =>
  if i = 1 then .transportErr else .response 200 [] true

/-- An oracle whose first request gets a 429 with a 300-byte body. -/
def oracleLongBody : Nat → ReqOutcome := fun _ =>
  .response 429 (List.replicate 300 65) true

/-- `cfgEx` with the write endpoint unset. -/
def cfgNoWrite : ClientConfig := { cfgEx with writeBaseEndpoint := none }

/-- `cfgEx` with the read endpoint unset. -/
def cfgNoRead : ClientConfig := { cfgEx with readBaseEndpoint := none }

/-- A concrete request fed to the round tripper. -/
def reqEx : HttpRequest :=
  { method := "GET", url := "http://read/api/v1/query_range",
    headers := [("Accept", "application/json")], body := [] }

/-- A concrete wrapped transport answering 200 with an empty body. -/
def delegateEx : HttpRequest → Except TransportError HttpResponse :=
  fun _ => .ok ⟨200, []⟩

end ContinuousTest

namespace ContinuousTest

/-! ### Codec round-trip lemmas -/

theorem decodeString_encode (s : String) (r : Bytes) :
    decodeString (encodeString s ++ r) = some (s, r) := by
  simp only [encodeString, decodeString, List.cons_append]
  have hlen : s.data.length ≤ (s.data.map Char.toNat ++ r).length := by
    simp
  rw [if_pos hlen]
  have htake : (s.data.map Char.toNat ++ r).take (s.data.map Char.toNat).length
      = s.data.map Char.toNat := List.take_left _ _
  have hdrop : (s.data.map Char.toNat ++ r).drop (s.data.map Char.toNat).length
      = r := List.drop_left _ _
  simp only [List.length_map] at htake hdrop
  rw [htake, hdrop, List.map_map]
  have hco : (Char.ofNat ∘ Char.toNat) = id := funext Char.ofNat_toNat
  rw [hco, List.map_id]

theorem decodeInt_encode (i : Int) (r : Bytes) :
    decodeInt (encodeInt i ++ r) = some (i, r) := by
  by_cases h : i < 0
  · have he : encodeInt i = [1, i.natAbs] := by simp [encodeInt, h]
    rw [he]
    show some ((if (1 : Nat) = 1 then -((i.natAbs : Int)) else (i.natAbs : Int)), r)
        = some (i, r)
    rw [if_pos rfl]
    have hv : -((i.natAbs : Int)) = i := by omega
    rw [hv]
  · have he : encodeInt i = [0, i.natAbs] := by simp [encodeInt, h]
    rw [he]
    show some ((if (0 : Nat) = 1 then -((i.natAbs : Int)) else (i.natAbs : Int)), r)
        = some (i, r)
    rw [if_neg (by decide)]
    have hv : ((i.natAbs : Int)) = i := by omega
    rw [hv]

theorem decodeLabel_encode (p : String × String) (r : Bytes) :
    decodeLabel (encodeLabel p ++ r) = some (p, r) := by
  simp only [encodeLabel, decodeLabel, List.append_assoc, decodeString_encode]

theorem decodeSample_encode (s : Sample) (r : Bytes) :
    decodeSample (encodeSample s ++ r) = some (s, r) := by
  simp only [encodeSample, decodeSample, List.append_assoc, decodeInt_encode]

theorem decodeN_encode (dec : Bytes → Option (α × Bytes)) (enc : α → Bytes)
    (h : ∀ a r, dec (enc a ++ r) = some (a, r)) :
    ∀ (l : List α) (r : Bytes), decodeN dec l.length ((l.map enc).flatten ++ r) = some (l, r) := by
  intro l
  induction l with
  | nil => intro r; simp [decodeN]
  | cons x xs ih =>
    intro r
    simp only [List.map_cons, List.flatten_cons, List.length_cons, decodeN,
      List.append_assoc, h, ih]

theorem decodeListOf_encode (dec : Bytes → Option (α × Bytes)) (enc : α → Bytes)
    (h : ∀ a r, dec (enc a ++ r) = some (a, r)) (l : List α) (r : Bytes) :
    decodeListOf dec (encodeListOf enc l ++ r) = some (l, r) := by
  simp only [encodeListOf, List.cons_append, decodeListOf]
  exact decodeN_encode dec enc h l r

theorem decodeTimeSeries_encode (ts : TimeSeries) (r : Bytes) :
    decodeTimeSeries (encodeTimeSeries ts ++ r) = some (ts, r) := by
  simp only [encodeTimeSeries, decodeTimeSeries, List.append_assoc,
    decodeListOf_encode decodeLabel encodeLabel decodeLabel_encode,
    decodeListOf_encode decodeSample encodeSample decodeSample_encode]

theorem protoUnmarshal_marshal (req : WriteRequest) :
    protoUnmarshal (protoMarshal req) = some req := by
  have h := decodeListOf_encode decodeTimeSeries encodeTimeSeries
    decodeTimeSeries_encode req.timeseries []
  simp only [List.append_nil] at h
  simp only [protoUnmarshal, protoMarshal, h]

theorem snappyDecode_encode (d : Bytes) : snappyDecode (snappyEncode d) = some d := by
  simp [snappyEncode, snappyDecode]

theorem decodeRequestBody_roundtrip (batch : List TimeSeries) :
    decodeRequestBody (snappyEncode (protoMarshal ⟨batch⟩)) = some batch := by
  simp [decodeRequestBody, snappyDecode_encode, protoUnmarshal_marshal]

/-! ### Arithmetic and batching helper lemmas -/

theorem ceilDiv_zero (b : Nat) : ceilDiv 0 b = 0 := by
  unfold ceilDiv
  cases b with
  | zero => rfl
  | succ b => exact Nat.div_eq_of_lt (by omega)

theorem ceilDiv_rec (n b : Nat) (hb : 1 ≤ b) (hn : 1 ≤ n) :
    ceilDiv n b = ceilDiv (n - min n b) b + 1 := by
  unfold ceilDiv
  by_cases h : b ≤ n
  · have hmin : min n b = b := by omega
    rw [hmin]
    have h1 : n + b - 1 = (n - b + b - 1) + b := by omega
    rw [h1, Nat.add_div_right _ (by omega)]
  · have hmin : min n b = n := by omega
    rw [hmin]
    have hnn : n - n = 0 := by omega
    rw [hnn]
    have hz : (0 + b - 1) / b = 0 := Nat.div_eq_of_lt (by omega)
    rw [hz]
    exact Nat.div_eq_of_lt_le (by omega) (by omega)

theorem ceilDiv_pos (n b : Nat) (hb : 1 ≤ b) (hn : 1 ≤ n) : 1 ≤ ceilDiv n b := by
  rw [ceilDiv_rec n b hb hn]
  omega

theorem ceilDiv_one_of_le (n b : Nat) (hb : 1 ≤ b) (hn : 1 ≤ n) (h : n ≤ b) :
    ceilDiv n b = 1 := by
  rw [ceilDiv_rec n b hb hn]
  have hmin : min n b = n := by omega
  rw [hmin]
  simp [ceilDiv_zero]

theorem chunkAt_zero (series : List TimeSeries) (b : Nat) :
    chunkAt series b 0 = series.take b := by
  simp [chunkAt]

theorem chunkAt_succ_drop (series : List TimeSeries) (b i : Nat) :
    chunkAt series b (i+1) = chunkAt (series.drop b) b i := by
  unfold chunkAt
  rw [List.drop_drop]
  have hm : (i+1) * b = b + i * b := by rw [Nat.succ_mul, Nat.add_comm]
  rw [hm]

theorem take_min_eq_take (l : List TimeSeries) (b : Nat) :
    l.take (min l.length b) = l.take b :=
  List.take_eq_take.mpr (by omega)

/-! ### `sendWriteRequest` case analysis -/

theorem sendWriteRequest_success (cfg : ClientConfig) (o : ReqOutcome) (req : WriteRequest)
    (h : isSuccess o = true) :
    sendWriteRequest cfg o req
      = (⟨outcomeStatus o, none⟩, some (buildWriteHttpRequest cfg req)) := by
  cases o with
  | response s b r =>
    simp only [isSuccess, beq_iff_eq] at h
    simp [sendWriteRequest, outcomeStatus, h]
  | marshalErr => simp [isSuccess] at h
  | buildErr => simp [isSuccess] at h
  | transportErr => simp [isSuccess] at h

theorem sendWriteRequest_fail (cfg : ClientConfig) (o : ReqOutcome) (req : WriteRequest)
    (h : isSuccess o = false) :
    (sendWriteRequest cfg o req).1.status = outcomeStatus o ∧
    ∃ e, (sendWriteRequest cfg o req).1.error = some e := by
  cases o with
  | response s b r =>
    simp only [isSuccess, beq_iff_eq] at h
    have h2 : ¬ (s / 100 = 2) := by simpa using h
    cases r with
    | true =>
      refine ⟨?_, ⟨.httpError s (b.take maxErrMsgLen), ?_⟩⟩ <;>
        simp [sendWriteRequest, outcomeStatus, if_neg h2]
    | false =>
      refine ⟨?_, ⟨.bodyReadError s, ?_⟩⟩ <;>
        simp [sendWriteRequest, outcomeStatus, if_neg h2]
  | marshalErr => exact ⟨rfl, ⟨.marshalError, rfl⟩⟩
  | buildErr => exact ⟨rfl, ⟨.buildError, rfl⟩⟩
  | transportErr => exact ⟨rfl, ⟨.transportError, rfl⟩⟩

/-! ### Unfolding the batching loop -/

theorem writeSeriesFuel_step_success (cfg : ClientConfig) (oracle : Nat → ReqOutcome)
    (fuel idx : Nat) (x : TimeSeries) (xs : List TimeSeries) (last : Nat)
    (hB : 0 ≤ cfg.writeBatchSize)
    (h0 : isSuccess (oracle idx) = true) :
    writeSeriesFuel cfg oracle (fuel+1) idx (x :: xs) last =
      match writeSeriesFuel cfg oracle fuel (idx+1)
          ((x :: xs).drop (min (x :: xs).length cfg.writeBatchSize.toNat))
          (outcomeStatus (oracle idx)) with
      | .diverge => .diverge
      | .panicked => .panicked
      | .done st er sent =>
        .done st er
          (buildWriteHttpRequest cfg ⟨(x :: xs).take cfg.writeBatchSize.toNat⟩ :: sent) := by
  have hnotneg : ¬ (minInt ((x :: xs).length : Int) cfg.writeBatchSize < 0) := by
    unfold minInt; split <;> omega
  have htn : (minInt ((x :: xs).length : Int) cfg.writeBatchSize).toNat
      = min (x :: xs).length cfg.writeBatchSize.toNat := by
    unfold minInt; split <;> omega
  simp only [writeSeriesFuel]
  rw [if_neg hnotneg, htn, take_min_eq_take,
    sendWriteRequest_success cfg (oracle idx) _ h0]
  cases hrec : writeSeriesFuel cfg oracle fuel (idx+1)
      ((x :: xs).drop (min (x :: xs).length cfg.writeBatchSize.toNat))
      (outcomeStatus (oracle idx)) with
  | diverge => simp [hrec]
  | panicked => simp [hrec]
  | done st er sent => simp [hrec]

theorem writeSeriesFuel_step_success_done (cfg : ClientConfig) (oracle : Nat → ReqOutcome)
    (fuel idx : Nat) (x : TimeSeries) (xs : List TimeSeries) (last : Nat)
    {st : Nat} {er : Option WriteError} {sent : List HttpRequest}
    (hB : 0 ≤ cfg.writeBatchSize)
    (h0 : isSuccess (oracle idx) = true)
    (hrec : writeSeriesFuel cfg oracle fuel (idx+1)
        ((x :: xs).drop (min (x :: xs).length cfg.writeBatchSize.toNat))
        (outcomeStatus (oracle idx)) = .done st er sent) :
    writeSeriesFuel cfg oracle (fuel+1) idx (x :: xs) last =
      .done st er
        (buildWriteHttpRequest cfg ⟨(x :: xs).take cfg.writeBatchSize.toNat⟩ :: sent) := by
  rw [writeSeriesFuel_step_success cfg oracle fuel idx x xs last hB h0, hrec]

theorem writeSeriesFuel_step_fail (cfg : ClientConfig) (oracle : Nat → ReqOutcome)
    (fuel idx : Nat) (x : TimeSeries) (xs : List TimeSeries) (last : Nat)
    (hB : 0 ≤ cfg.writeBatchSize)
    (h0 : isSuccess (oracle idx) = false) :
    writeSeriesFuel cfg oracle (fuel+1) idx (x :: xs) last =
      .done (sendWriteRequest cfg (oracle idx)
              ⟨(x :: xs).take cfg.writeBatchSize.toNat⟩).1.status
            (sendWriteRequest cfg (oracle idx)
              ⟨(x :: xs).take cfg.writeBatchSize.toNat⟩).1.error
            (sendWriteRequest cfg (oracle idx)
              ⟨(x :: xs).take cfg.writeBatchSize.toNat⟩).2.toList := by
  have hnotneg : ¬ (minInt ((x :: xs).length : Int) cfg.writeBatchSize < 0) := by
    unfold minInt; split <;> omega
  have htn : (minInt ((x :: xs).length : Int) cfg.writeBatchSize).toNat
      = min (x :: xs).length cfg.writeBatchSize.toNat := by
    unfold minInt; split <;> omega
  obtain ⟨hs, e, he⟩ := sendWriteRequest_fail cfg (oracle idx)
    ⟨(x :: xs).take cfg.writeBatchSize.toNat⟩ h0
  simp only [writeSeriesFuel]
  rw [if_neg hnotneg, htn, take_min_eq_take, he]

/-- Characterization of a fully successful run of the batching loop: the
loop terminates, returns the status of the last batch and no error, and the
issued requests are exactly the chunked batches, in order. -/
theorem writeSeriesFuel_success_run (cfg : ClientConfig) (oracle : Nat → ReqOutcome)
    (hB : 1 ≤ cfg.writeBatchSize) :
    ∀ (fuel : Nat) (series : List TimeSeries) (idx last : Nat),
      series.length ≤ fuel →
      (∀ j, j < ceilDiv series.length cfg.writeBatchSize.toNat →
        isSuccess (oracle (idx + j)) = true) →
      writeSeriesFuel cfg oracle fuel idx series last =
        .done
          (if series.length = 0 then last
           else outcomeStatus
             (oracle (idx + (ceilDiv series.length cfg.writeBatchSize.toNat - 1))))
          none
          ((List.range (ceilDiv series.length cfg.writeBatchSize.toNat)).map
            (fun i => buildWriteHttpRequest cfg
              ⟨chunkAt series cfg.writeBatchSize.toNat i⟩)) := by
  have hb1 : 1 ≤ cfg.writeBatchSize.toNat := by omega
  intro fuel
  induction fuel with
  | zero =>
    intro series idx last hf _
    have hs : series = [] := List.eq_nil_of_length_eq_zero (by omega)
    subst hs
    simp [writeSeriesFuel, ceilDiv_zero]
  | succ fuel ih =>
    intro series idx last hf hok
    cases series with
    | nil => simp [writeSeriesFuel, ceilDiv_zero]
    | cons x xs =>
      have hn : 1 ≤ (x :: xs).length := by simp
      have hnb1 : 1 ≤ ceilDiv (x :: xs).length cfg.writeBatchSize.toNat :=
        ceilDiv_pos _ _ hb1 hn
      have h0 : isSuccess (oracle (idx + 0)) = true := hok 0 hnb1
      rw [Nat.add_zero] at h0
      have hrest_len :
          ((x :: xs).drop (min (x :: xs).length cfg.writeBatchSize.toNat)).length
          = (x :: xs).length - min (x :: xs).length cfg.writeBatchSize.toNat := by
        rw [List.length_drop]
      have hnb_rec : ceilDiv (x :: xs).length cfg.writeBatchSize.toNat
          = ceilDiv ((x :: xs).length - min (x :: xs).length cfg.writeBatchSize.toNat)
              cfg.writeBatchSize.toNat + 1 :=
        ceilDiv_rec _ _ hb1 hn
      have hrec := ih ((x :: xs).drop (min (x :: xs).length cfg.writeBatchSize.toNat))
        (idx + 1) (outcomeStatus (oracle idx))
        (by rw [hrest_len]; omega)
        (by
          intro j hj
          rw [hrest_len] at hj
          have hjs := hok (j + 1) (by omega)
          rw [show idx + (j + 1) = idx + 1 + j by omega] at hjs
          exact hjs)
      rw [writeSeriesFuel_step_success_done cfg oracle fuel idx x xs last (by omega) h0 hrec]
      by_cases hsmall : (x :: xs).length ≤ cfg.writeBatchSize.toNat
      · -- the whole input fits in one batch: the recursion sees the empty list
        have hmin : min (x :: xs).length cfg.writeBatchSize.toNat = (x :: xs).length := by
          omega
        have hr0 : (x :: xs).length - min (x :: xs).length cfg.writeBatchSize.toNat = 0 := by
          omega
        have hnb_one : ceilDiv (x :: xs).length cfg.writeBatchSize.toNat = 1 :=
          ceilDiv_one_of_le _ _ hb1 hn hsmall
        rw [hrest_len, hr0, ceilDiv_zero, hnb_one]
        simp [List.range_succ, chunkAt_zero]
      · -- at least one further batch remains after the first
        have hmin : min (x :: xs).length cfg.writeBatchSize.toNat
            = cfg.writeBatchSize.toNat := by omega
        have hrpos : 1 ≤ (x :: xs).length - min (x :: xs).length cfg.writeBatchSize.toNat := by
          omega
        have hnbR : 1 ≤ ceilDiv ((x :: xs).length - min (x :: xs).length cfg.writeBatchSize.toNat)
            cfg.writeBatchSize.toNat :=
          ceilDiv_pos _ _ hb1 hrpos
        have hrne : ¬ (((x :: xs).drop (min (x :: xs).length cfg.writeBatchSize.toNat)).length
            = 0) := by
          rw [hrest_len]; omega
        have hne : ¬ ((x :: xs).length = 0) := by omega
        rw [if_neg hne]
        rw [hrest_len] at hrne ⊢
        rw [if_neg (by omega : ¬ ((x :: xs).length
          - min (x :: xs).length cfg.writeBatchSize.toNat = 0))]
        rw [show idx + 1 + (ceilDiv ((x :: xs).length
              - min (x :: xs).length cfg.writeBatchSize.toNat) cfg.writeBatchSize.toNat - 1)
            = idx + (ceilDiv (x :: xs).length cfg.writeBatchSize.toNat - 1) from by
          rw [hnb_rec]; omega]
        congr 1
        rw [hnb_rec, List.range_succ_eq_map, List.map_cons, List.map_map]
        congr 1
        · rw [chunkAt_zero]
        · apply List.map_congr_left
          intro i _
          simp only [Function.comp, Nat.succ_eq_add_one]
          rw [chunkAt_succ_drop, hmin]

/-- Characterization of a run whose first `k` batches succeed and whose
batch `k` (0-based) fails: the loop stops there, returning exactly what
`sendWriteRequest` returned for batch `k`, having issued the `k` successful
requests plus whatever batch `k` put on the wire. -/
theorem writeSeriesFuel_fail_run (cfg : ClientConfig) (oracle : Nat → ReqOutcome)
    (hB : 1 ≤ cfg.writeBatchSize) :
    ∀ (k fuel : Nat) (series : List TimeSeries) (idx last : Nat),
      series.length ≤ fuel →
      k < ceilDiv series.length cfg.writeBatchSize.toNat →
      (∀ j, j < k → isSuccess (oracle (idx + j)) = true) →
      isSuccess (oracle (idx + k)) = false →
      writeSeriesFuel cfg oracle fuel idx series last =
        .done
          (sendWriteRequest cfg (oracle (idx + k))
            ⟨chunkAt series cfg.writeBatchSize.toNat k⟩).1.status
          (sendWriteRequest cfg (oracle (idx + k))
            ⟨chunkAt series cfg.writeBatchSize.toNat k⟩).1.error
          (((List.range k).map (fun i => buildWriteHttpRequest cfg
              ⟨chunkAt series cfg.writeBatchSize.toNat i⟩))
            ++ (sendWriteRequest cfg (oracle (idx + k))
                ⟨chunkAt series cfg.writeBatchSize.toNat k⟩).2.toList) := by
  have hb1 : 1 ≤ cfg.writeBatchSize.toNat := by omega
  intro k
  induction k with
  | zero =>
    intro fuel series idx last hf hk _ hfail
    rw [Nat.add_zero] at hfail
    cases series with
    | nil => simp [ceilDiv_zero] at hk
    | cons x xs =>
      cases fuel with
      | zero => simp at hf
      | succ f =>
        rw [writeSeriesFuel_step_fail cfg oracle f idx x xs last (by omega) hfail]
        rw [Nat.add_zero, chunkAt_zero]
        simp
  | succ k ihk =>
    intro fuel series idx last hf hk hok hfail
    cases series with
    | nil => simp [ceilDiv_zero] at hk
    | cons x xs =>
      cases fuel with
      | zero => simp at hf
      | succ f =>
        have hn : 1 ≤ (x :: xs).length := by simp
        have hnb_rec : ceilDiv (x :: xs).length cfg.writeBatchSize.toNat
            = ceilDiv ((x :: xs).length - min (x :: xs).length cfg.writeBatchSize.toNat)
                cfg.writeBatchSize.toNat + 1 :=
          ceilDiv_rec _ _ hb1 hn
        have hbig : cfg.writeBatchSize.toNat < (x :: xs).length := by
          by_contra hle
          have h1 : ceilDiv (x :: xs).length cfg.writeBatchSize.toNat = 1 :=
            ceilDiv_one_of_le _ _ hb1 hn (by omega)
          omega
        have hmin : min (x :: xs).length cfg.writeBatchSize.toNat
            = cfg.writeBatchSize.toNat := by omega
        have h0 : isSuccess (oracle (idx + 0)) = true := hok 0 (by omega)
        rw [Nat.add_zero] at h0
        have hrest_len :
            ((x :: xs).drop (min (x :: xs).length cfg.writeBatchSize.toNat)).length
            = (x :: xs).length - min (x :: xs).length cfg.writeBatchSize.toNat := by
          rw [List.length_drop]
        have hrec := ihk f ((x :: xs).drop (min (x :: xs).length cfg.writeBatchSize.toNat))
          (idx + 1) (outcomeStatus (oracle idx))
          (by rw [hrest_len]; omega)
          (by rw [hrest_len]; omega)
          (by
            intro j hj
            have hjs := hok (j + 1) (by omega)
            rw [show idx + (j + 1) = idx + 1 + j by omega] at hjs
            exact hjs)
          (by
            rw [show idx + 1 + k = idx + (k + 1) by omega]
            exact hfail)
        rw [writeSeriesFuel_step_success_done cfg oracle f idx x xs last (by omega) h0 hrec]
        rw [show idx + 1 + k = idx + (k + 1) by omega]
        rw [chunkAt_succ_drop (x :: xs) cfg.writeBatchSize.toNat k] at *
        rw [hmin] at *
        congr 1
        rw [List.range_succ_eq_map, List.map_cons, List.map_map]
        rw [List.cons_append]
        congr 2
        · rw [chunkAt_zero]
        · apply List.map_congr_left
          intro i _
          simp only [Function.comp, Nat.succ_eq_add_one]
          rw [chunkAt_succ_drop]

/-- What `sendWriteRequest` returns on a non-2xx response: the response's
status code, and an error embedding the status and the truncated body (or a
read failure marker), with the request having been issued. -/
theorem sendWriteRequest_non2xx (cfg : ClientConfig) (req : WriteRequest)
    (s : Nat) (body : Bytes) (readOk : Bool) (h : s / 100 ≠ 2) :
    (sendWriteRequest cfg (.response s body readOk) req).1.status = s ∧
    (sendWriteRequest cfg (.response s body readOk) req).1.error
      = some (if readOk then .httpError s (body.take maxErrMsgLen)
              else .bodyReadError s) ∧
    (sendWriteRequest cfg (.response s body readOk) req).2
      = some (buildWriteHttpRequest cfg req) := by
  cases readOk <;> simp [sendWriteRequest, h]

/-- What `sendWriteRequest` returns when the outcome is a marshal, build or
transport failure: status 0 and the corresponding error. -/
theorem sendWriteRequest_nonresponse_status (cfg : ClientConfig) (req : WriteRequest)
    (o : ReqOutcome)
    (h : o = .marshalErr ∨ o = .buildErr ∨ o = .transportErr) :
    (sendWriteRequest cfg o req).1.status = 0 := by
  rcases h with h | h | h <;> subst h <;> rfl

/-- Go `for len(series) > 0` with a positive batch size always terminates:
fuel equal to the input length is enough, whatever the outcomes are. -/
theorem writeSeriesFuel_terminates (cfg : ClientConfig) (oracle : Nat → ReqOutcome)
    (hB : 1 ≤ cfg.writeBatchSize) :
    ∀ (fuel : Nat) (series : List TimeSeries) (idx last : Nat),
      series.length ≤ fuel →
      ∃ st er sent, writeSeriesFuel cfg oracle fuel idx series last = .done st er sent := by
  have hb1 : 1 ≤ cfg.writeBatchSize.toNat := by omega
  intro fuel
  induction fuel with
  | zero =>
    intro series idx last hf
    have hs : series = [] := List.eq_nil_of_length_eq_zero (by omega)
    subst hs
    exact ⟨last, none, [], rfl⟩
  | succ f ih =>
    intro series idx last hf
    cases series with
    | nil => exact ⟨last, none, [], rfl⟩
    | cons x xs =>
      have hn : 1 ≤ (x :: xs).length := by simp
      by_cases h0 : isSuccess (oracle idx) = true
      · obtain ⟨st, er, sent, hrec⟩ :=
          ih ((x :: xs).drop (min (x :: xs).length cfg.writeBatchSize.toNat))
            (idx + 1) (outcomeStatus (oracle idx))
            (by rw [List.length_drop]; omega)
        exact ⟨st, er, _,
          writeSeriesFuel_step_success_done cfg oracle f idx x xs last (by omega) h0 hrec⟩
      · have h0f : isSuccess (oracle idx) = false := by
          simpa using h0
        exact ⟨_, _, _, writeSeriesFuel_step_fail cfg oracle f idx x xs last (by omega) h0f⟩

/-- With batch size 0 and a non-empty input, the loop consumes nothing: as
long as requests keep succeeding it spins forever (any amount of fuel runs
out). -/
theorem writeSeriesFuel_zero_batch_diverges (cfg : ClientConfig)
    (oracle : Nat → ReqOutcome) (hB : cfg.writeBatchSize = 0) :
    ∀ (fuel : Nat) (series : List TimeSeries) (idx last : Nat),
      series ≠ [] →
      (∀ j, isSuccess (oracle j) = true) →
      writeSeriesFuel cfg oracle fuel idx series last = .diverge := by
  intro fuel
  induction fuel with
  | zero =>
    intro series idx last hne _
    cases series with
    | nil => exact absurd rfl hne
    | cons x xs => rfl
  | succ f ih =>
    intro series idx last hne hok
    cases series with
    | nil => exact absurd rfl hne
    | cons x xs =>
      rw [writeSeriesFuel_step_success cfg oracle f idx x xs last (by omega) (hok idx)]
      have hdrop : (x :: xs).drop (min (x :: xs).length cfg.writeBatchSize.toNat)
          = x :: xs := by
        rw [hB]
        simp
      rw [hdrop, ih (x :: xs) (idx + 1) (outcomeStatus (oracle idx)) hne hok]

/-- With a negative batch size and a non-empty input, the slice expression
`series[0:end]` has a negative bound and the call panics at once. -/
theorem writeSeriesFuel_neg_batch_panics (cfg : ClientConfig)
    (oracle : Nat → ReqOutcome) (hB : cfg.writeBatchSize < 0) :
    ∀ (fuel : Nat) (series : List TimeSeries) (idx last : Nat),
      series ≠ [] →
      writeSeriesFuel cfg oracle (fuel + 1) idx series last = .panicked := by
  intro fuel series idx last hne
  cases series with
  | nil => exact absurd rfl hne
  | cons x xs =>
    have hneg : minInt ((x :: xs).length : Int) cfg.writeBatchSize < 0 := by
      unfold minInt; split <;> omega
    simp only [writeSeriesFuel]
    rw [if_pos hneg]

/-! ### Header map lemmas -/

theorem headerGet_set_self (hs : List (String × String)) (k v : String) :
    headerGet (headerSet hs k v) k = some v := by
  simp [headerGet, headerSet]

theorem headerGet_set_ne (hs : List (String × String)) (k v q : String) (h : q ≠ k) :
    headerGet (headerSet hs k v) q = headerGet hs q := by
  unfold headerSet
  rw [headerGet]
  rw [if_neg (fun hkq => h hkq.symm)]
  induction hs with
  | nil => rfl
  | cons a t ih =>
    obtain ⟨a1, a2⟩ := a
    by_cases hak : a1 = k
    · rw [List.filter_cons_of_neg (by simp [hak])]
      rw [ih]
      rw [headerGet]
      rw [if_neg (by rw [hak]; exact fun hkq => h hkq.symm)]
    · rw [List.filter_cons_of_pos (by simp [hak])]
      rw [headerGet, headerGet]
      by_cases haq : a1 = q
      · rw [if_pos haq, if_pos haq]
      · rw [if_neg haq, if_neg haq]
        exact ih

/-! ### Claim theorems -/

/-- C1: with batch size `B ≥ 1` and every request succeeding, `WriteSeries`
issues exactly `ceil(N/B)` requests, and the body of the i-th request,
after snappy decompression and protobuf decoding, is exactly the contiguous
sub-slice `series[i*B : min((i+1)*B, N)]`, in order.  Since batching splits
the list of whole samples, no boundary ever splits a single sample. -/
theorem writeSeries_success_batches (cfg : ClientConfig) (oracle : Nat → ReqOutcome)
    (series : List TimeSeries)
    (hB : 1 ≤ cfg.writeBatchSize)
    (hok : ∀ j, j < ceilDiv series.length cfg.writeBatchSize.toNat →
      isSuccess (oracle j) = true) :
    ∃ status sent,
      WriteSeries cfg oracle series = .done status none sent ∧
      sent.length = ceilDiv series.length cfg.writeBatchSize.toNat ∧
      ∀ i, (h : i < sent.length) →
        decodeRequestBody (sent[i].body)
          = some ((series.drop (i * cfg.writeBatchSize.toNat)).take
              cfg.writeBatchSize.toNat) := by
  have h := writeSeriesFuel_success_run cfg oracle hB series.length series 0 0 le_rfl
    (by intro j hj; rw [Nat.zero_add]; exact hok j hj)
  refine ⟨_, _, h, by simp, ?_⟩
  intro i hi
  have hi2 : i < ceilDiv series.length cfg.writeBatchSize.toNat := by
    simpa using hi
  simp only [List.getElem_map, List.getElem_range]
  show decodeRequestBody (snappyEncode (protoMarshal
    ⟨chunkAt series cfg.writeBatchSize.toNat i⟩)) = _
  rw [decodeRequestBody_roundtrip]
  rfl

/-- C1 witness: batch size 2 on 5 series, every request a 204. -/
theorem writeSeries_success_batches_witness :
    ∃ status sent,
      WriteSeries cfgEx oracleOk seriesEx = .done status none sent ∧
      sent.length = ceilDiv seriesEx.length cfgEx.writeBatchSize.toNat ∧
      ∀ i, (h : i < sent.length) →
        decodeRequestBody (sent[i].body)
          = some ((seriesEx.drop (i * cfgEx.writeBatchSize.toNat)).take
              cfgEx.writeBatchSize.toNat) :=
  writeSeries_success_batches cfgEx oracleOk seriesEx (by decide)
    (fun _ _ => rfl)

/-- C7: on a non-empty input with every batch succeeding (2xx),
`WriteSeries` returns the status code of the last batch sent and no
error. -/
theorem writeSeries_success_last_status (cfg : ClientConfig)
    (oracle : Nat → ReqOutcome) (series : List TimeSeries)
    (hB : 1 ≤ cfg.writeBatchSize) (hne : series ≠ [])
    (hok : ∀ j, j < ceilDiv series.length cfg.writeBatchSize.toNat →
      isSuccess (oracle j) = true) :
    ∃ sent, WriteSeries cfg oracle series =
      .done (outcomeStatus (oracle
          (ceilDiv series.length cfg.writeBatchSize.toNat - 1))) none sent := by
  have h := writeSeriesFuel_success_run cfg oracle hB series.length series 0 0 le_rfl
    (by intro j hj; rw [Nat.zero_add]; exact hok j hj)
  have hlen : ¬ (series.length = 0) := by
    intro h0
    exact hne (List.eq_nil_of_length_eq_zero h0)
  rw [if_neg hlen, Nat.zero_add] at h
  exact ⟨_, h⟩

/-- C7 witness: three batches of 204s over 5 series. -/
theorem writeSeries_success_last_status_witness :
    ∃ sent, WriteSeries cfgEx oracleOk seriesEx =
      .done (outcomeStatus (oracleOk
          (ceilDiv seriesEx.length cfgEx.writeBatchSize.toNat - 1))) none sent :=
  writeSeries_success_last_status cfgEx oracleOk seriesEx (by decide)
    (by decide) (fun _ _ => rfl)

/-- C2: if the k-th batch request (1-based) receives a non-2xx response
while the earlier ones succeed, `WriteSeries` sends exactly `k` requests,
returns that response's status code and a non-nil error. -/
theorem writeSeries_fail_fast (cfg : ClientConfig) (oracle : Nat → ReqOutcome)
    (series : List TimeSeries) (k s : Nat) (body : Bytes) (readOk : Bool)
    (hB : 1 ≤ cfg.writeBatchSize)
    (hk1 : 1 ≤ k)
    (hk : k - 1 < ceilDiv series.length cfg.writeBatchSize.toNat)
    (hok : ∀ j, j < k - 1 → isSuccess (oracle j) = true)
    (hko : oracle (k - 1) = .response s body readOk)
    (hnon2xx : s / 100 ≠ 2) :
    ∃ e sent, WriteSeries cfg oracle series = .done s (some e) sent ∧
      sent.length = k := by
  have hfail : isSuccess (oracle (0 + (k - 1))) = false := by
    rw [Nat.zero_add, hko]
    simpa [isSuccess] using hnon2xx
  have h := writeSeriesFuel_fail_run cfg oracle hB (k - 1) series.length series 0 0
    le_rfl hk (by intro j hj; rw [Nat.zero_add]; exact hok j hj) hfail
  rw [Nat.zero_add, hko] at h
  obtain ⟨hst, herr, hsent⟩ := sendWriteRequest_non2xx cfg
    ⟨chunkAt series cfg.writeBatchSize.toNat (k - 1)⟩ s body readOk hnon2xx
  rw [hst, herr, hsent] at h
  refine ⟨_, _, h, ?_⟩
  simp
  omega

/-- C2 witness: batch size 2 over 5 series; the second batch gets a 500, so
exactly 2 requests go out and 500 is returned with an error. -/
theorem writeSeries_fail_fast_witness :
    ∃ e sent, WriteSeries cfgEx oracleFailAt1 seriesEx = .done 500 (some e) sent ∧
      sent.length = 2 :=
  writeSeries_fail_fast cfgEx oracleFailAt1 seriesEx 2 500 [7] true
    (by decide) (by decide) (by decide) (by intro j hj; interval_cases j <;> rfl)
    rfl (by decide)

/-- C8: if the k-th batch (0-based) fails before any response is received —
serialization failure, request building failure, or transport failure —
`WriteSeries` stops there and returns status code 0 with a non-nil error;
at most the k successful requests plus possibly the failing one were
handed to the transport. -/
theorem writeSeries_abort_no_response (cfg : ClientConfig)
    (oracle : Nat → ReqOutcome) (series : List TimeSeries) (k : Nat)
    (hB : 1 ≤ cfg.writeBatchSize)
    (hk : k < ceilDiv series.length cfg.writeBatchSize.toNat)
    (hok : ∀ j, j < k → isSuccess (oracle j) = true)
    (ho : oracle k = .marshalErr ∨ oracle k = .buildErr ∨ oracle k = .transportErr) :
    ∃ e sent, WriteSeries cfg oracle series = .done 0 (some e) sent ∧
      sent.length ≤ k + 1 := by
  have hfail : isSuccess (oracle (0 + k)) = false := by
    rw [Nat.zero_add]
    rcases ho with h | h | h <;> rw [h] <;> rfl
  have h := writeSeriesFuel_fail_run cfg oracle hB k series.length series 0 0
    le_rfl hk (by intro j hj; rw [Nat.zero_add]; exact hok j hj) hfail
  rw [Nat.zero_add] at h
  have hst : (sendWriteRequest cfg (oracle k)
      ⟨chunkAt series cfg.writeBatchSize.toNat k⟩).1.status = 0 :=
    sendWriteRequest_nonresponse_status cfg _ _ ho
  obtain ⟨-, e, herr⟩ := sendWriteRequest_fail cfg (oracle k)
    ⟨chunkAt series cfg.writeBatchSize.toNat k⟩ (by rw [Nat.zero_add] at hfail; exact hfail)
  rw [hst, herr] at h
  refine ⟨e, _, h, ?_⟩
  simp only [List.length_append, List.length_map, List.length_range]
  have : ((sendWriteRequest cfg (oracle k)
      ⟨chunkAt series cfg.writeBatchSize.toNat k⟩).2).toList.length ≤ 1 := by
    cases (sendWriteRequest cfg (oracle k)
      ⟨chunkAt series cfg.writeBatchSize.toNat k⟩).2 <;> simp
  omega

/-- C8 witness: the second batch dies at transport level; status 0 and an
error are returned. -/
theorem writeSeries_abort_no_response_witness :
    ∃ e sent, WriteSeries cfgEx oracleTransportAt1 seriesEx = .done 0 (some e) sent ∧
      sent.length ≤ 2 :=
  writeSeries_abort_no_response cfgEx oracleTransportAt1 seriesEx 1
    (by decide) (by decide) (by intro j hj; interval_cases j <;> rfl)
    (Or.inr (Or.inr rfl))

/-- C5: when a batch gets a non-2xx response whose body is readable, the
error `WriteSeries` returns embeds the response's status and its body
truncated to `maxErrMsgLen = 256` bytes: exactly 256 bytes when the body is
longer, the whole body otherwise. -/
theorem writeSeries_error_truncates_body (cfg : ClientConfig)
    (oracle : Nat → ReqOutcome) (series : List TimeSeries) (k s : Nat) (body : Bytes)
    (hB : 1 ≤ cfg.writeBatchSize)
    (hk : k < ceilDiv series.length cfg.writeBatchSize.toNat)
    (hok : ∀ j, j < k → isSuccess (oracle j) = true)
    (hko : oracle k = .response s body true)
    (hnon2xx : s / 100 ≠ 2) :
    ∃ sent, WriteSeries cfg oracle series
        = .done s (some (.httpError s (body.take maxErrMsgLen))) sent ∧
      (maxErrMsgLen < body.length → (body.take maxErrMsgLen).length = maxErrMsgLen) ∧
      (body.length ≤ maxErrMsgLen → body.take maxErrMsgLen = body) := by
  have hfail : isSuccess (oracle (0 + k)) = false := by
    rw [Nat.zero_add, hko]
    simpa [isSuccess] using hnon2xx
  have h := writeSeriesFuel_fail_run cfg oracle hB k series.length series 0 0
    le_rfl hk (by intro j hj; rw [Nat.zero_add]; exact hok j hj) hfail
  rw [Nat.zero_add, hko] at h
  obtain ⟨hst, herr, hsent⟩ := sendWriteRequest_non2xx cfg
    ⟨chunkAt series cfg.writeBatchSize.toNat k⟩ s body true hnon2xx
  rw [if_pos rfl] at herr
  rw [hst, herr] at h
  refine ⟨_, h, ?_, ?_⟩
  · intro hlong
    rw [List.length_take]
    omega
  · intro hshort
    exact List.take_of_length_le hshort

/-- C5 witness: a 429 with a 300-byte body on the first batch; the embedded
truncated body has exactly 256 bytes. -/
theorem writeSeries_error_truncates_body_witness :
    ∃ sent, WriteSeries cfgEx oracleLongBody seriesEx
        = .done 429 (some (.httpError 429
            ((List.replicate 300 65).take maxErrMsgLen))) sent ∧
      (maxErrMsgLen < (List.replicate 300 65).length →
        ((List.replicate 300 65).take maxErrMsgLen).length = maxErrMsgLen) ∧
      ((List.replicate 300 65).length ≤ maxErrMsgLen →
        (List.replicate 300 65).take maxErrMsgLen = List.replicate 300 65) :=
  writeSeries_error_truncates_body cfgEx oracleLongBody seriesEx 0 429
    (List.replicate 300 65) (by decide) (by decide) (by omega) rfl (by decide)

/-- C10: on the empty input, `WriteSeries` issues no request and returns
status 0 with no error. -/
theorem writeSeries_empty (cfg : ClientConfig) (oracle : Nat → ReqOutcome) :
    WriteSeries cfg oracle [] = .done 0 none [] := rfl

/-- C9 (amended): with `WriteBatchSize ≥ 1` the loop terminates on every
input (each iteration consumes at least one series, so fuel equal to the
input length reaches `done`); with `WriteBatchSize = 0` and a non-empty
input the loop body removes no samples and, as long as requests succeed,
the loop never finishes; with `WriteBatchSize < 0` and a non-empty input
the slice expression `series[0:end]` has a negative bound and the call
panics instead of looping. -/
theorem writeSeries_progress (cfg : ClientConfig) (oracle : Nat → ReqOutcome) :
    (1 ≤ cfg.writeBatchSize →
      ∀ series : List TimeSeries,
        ∃ st er sent, WriteSeries cfg oracle series = .done st er sent) ∧
    (cfg.writeBatchSize = 0 →
      ∀ series : List TimeSeries, series ≠ [] →
      (∀ j, isSuccess (oracle j) = true) →
      ∀ fuel idx last, writeSeriesFuel cfg oracle fuel idx series last = .diverge) ∧
    (cfg.writeBatchSize < 0 →
      ∀ series : List TimeSeries, series ≠ [] →
      ∀ fuel idx last, writeSeriesFuel cfg oracle (fuel + 1) idx series last
        = .panicked) := by
  refine ⟨?_, ?_, ?_⟩
  · intro hB series
    exact writeSeriesFuel_terminates cfg oracle hB series.length series 0 0 le_rfl
  · intro hB series hne hok fuel idx last
    exact writeSeriesFuel_zero_batch_diverges cfg oracle hB fuel series idx last hne hok
  · intro hB series hne fuel idx last
    exact writeSeriesFuel_neg_batch_panics cfg oracle hB fuel series idx last hne

/-- C9 counterexample: with batch size -1 and one input series the loop
does not spin sample-free — the very first iteration panics on the
negative slice bound. -/
theorem writeSeries_progress_cex :
    WriteSeries cfgExNeg oracleOk [tsEx 0] = .panicked ∧
    WriteSeries cfgExNeg oracleOk [tsEx 0] ≠ .diverge := by
  constructor
  · rfl
  · intro h
    rw [show WriteSeries cfgExNeg oracleOk [tsEx 0] = .panicked from rfl] at h
    cases h

/-- C9 witness: batch size 2 terminates on 5 series; batch size 0 spins on
them for any fuel; batch size -1 panics at once. -/
theorem writeSeries_progress_witness :
    (∃ st er sent, WriteSeries cfgEx oracleOk seriesEx = .done st er sent) ∧
    writeSeriesFuel cfgExZero oracleOk 100 0 seriesEx 0 = .diverge ∧
    writeSeriesFuel cfgExNeg oracleOk (6 + 1) 0 seriesEx 0 = .panicked :=
  ⟨(writeSeries_progress cfgEx oracleOk).1 (by decide) seriesEx,
   (writeSeries_progress cfgExZero oracleOk).2.1 rfl seriesEx (by decide)
     (fun _ => rfl) 100 0 0,
   (writeSeries_progress cfgExNeg oracleOk).2.2 (by decide) seriesEx (by decide) 6 0 0⟩

/-- C3: `QueryRange` yields an error whenever the backend's value declares
a type other than matrix or fails the matrix type assertion; a value that
declares matrix and casts successfully is returned unchanged; and any
returned matrix necessarily came from such a value — no coercion ever
happens. -/
theorem queryRange_matrix_discipline (v : ModelValue) :
    ((v.declaredType ≠ .valMatrix ∨ v.asMatrix = none) →
      ∃ e, QueryRange (.ok v) = .error e) ∧
    (∀ m, v.declaredType = .valMatrix → v.asMatrix = some m →
      QueryRange (.ok v) = .ok m) ∧
    (∀ m, QueryRange (.ok v) = .ok m →
      v.declaredType = .valMatrix ∧ v.asMatrix = some m) := by
  by_cases hd : v.declaredType = .valMatrix
  · cases hm : v.asMatrix with
    | none =>
      refine ⟨fun _ => ⟨.castFailed, ?_⟩, fun m _ hsome => ?_, fun m hok => ?_⟩
      · simp [QueryRange, hd, hm]
      · cases hsome
      · rw [show QueryRange (.ok v) = .error .castFailed by simp [QueryRange, hd, hm]]
          at hok
        cases hok
    | some m0 =>
      refine ⟨fun h => ?_, fun m _ hsome => ?_, fun m hok => ?_⟩
      · rcases h with h | h
        · exact absurd hd h
        · cases h
      · injection hsome with hmm
        subst hmm
        simp [QueryRange, hd, hm]
      · rw [show QueryRange (.ok v) = .ok m0 by simp [QueryRange, hd, hm]] at hok
        injection hok with hmm
        subst hmm
        exact ⟨hd, rfl⟩
  · refine ⟨fun _ => ⟨.expectingMatrix, ?_⟩, fun m hdm _ => absurd hdm hd,
      fun m hok => ?_⟩
    · simp [QueryRange, hd]
    · rw [show QueryRange (.ok v) = .error .expectingMatrix by simp [QueryRange, hd]]
        at hok
      cases hok

/-- C3 witness: a declared vector is rejected with an error; a declared and
castable matrix is returned unchanged. -/
theorem queryRange_matrix_discipline_witness :
    (∃ e, QueryRange (.ok ⟨.valVector, none⟩) = .error e) ∧
    QueryRange (.ok ⟨.valMatrix, some [⟨[], []⟩]⟩) = .ok [⟨[], []⟩] :=
  ⟨(queryRange_matrix_discipline ⟨.valVector, none⟩).1 (Or.inl (by decide)),
   (queryRange_matrix_discipline ⟨.valMatrix, some [⟨[], []⟩]⟩).2.1
     [⟨[], []⟩] rfl rfl⟩

/-- C4: `NewClient` on a configuration with a nil write URL or a nil read
URL fails with one of the two descriptive messages of the source and never
produces a client. -/
theorem newClient_requires_endpoints (cfg : ClientConfig)
    (h : cfg.writeBaseEndpoint = none ∨ cfg.readBaseEndpoint = none) :
    ∃ msg, NewClient cfg = .error msg ∧
      (msg = "the write endpoint has not been set" ∨
       msg = "the read endpoint has not been set") ∧
      ∀ c, NewClient cfg ≠ .ok c := by
  unfold NewClient
  by_cases hw : cfg.writeBaseEndpoint = none
  · rw [if_pos hw]
    exact ⟨_, rfl, Or.inl rfl, fun c hc => Except.noConfusion hc⟩
  · have hr : cfg.readBaseEndpoint = none := h.resolve_left hw
    rw [if_neg hw, if_pos hr]
    exact ⟨_, rfl, Or.inr rfl, fun c hc => Except.noConfusion hc⟩

/-- C4 witness: a configuration with no write endpoint is rejected. -/
theorem newClient_requires_endpoints_witness :
    ∃ msg, NewClient cfgNoWrite = .error msg ∧
      (msg = "the write endpoint has not been set" ∨
       msg = "the read endpoint has not been set") ∧
      ∀ c, NewClient cfgNoWrite ≠ .ok c :=
  newClient_requires_endpoints cfgNoWrite (Or.inl rfl)

/-- C6: the tenant round tripper hands the wrapped transport the same
request with `X-Scope-OrgID` set to exactly the configured tenant — other
headers, method, URL and body untouched — and returns the delegate's
response or error unchanged; hence every outbound request carries the
configured tenant header. -/
theorem roundTrip_tenant_header (rt : clientRoundTripper)
    (delegate : HttpRequest → Except TransportError HttpResponse)
    (req : HttpRequest) :
    ∃ req2, RoundTrip rt delegate req = delegate req2 ∧
      headerGet req2.headers "X-Scope-OrgID" = some rt.tenantID ∧
      (∀ k, k ≠ "X-Scope-OrgID" → headerGet req2.headers k = headerGet req.headers k) ∧
      req2.method = req.method ∧ req2.url = req.url ∧ req2.body = req.body := by
  refine ⟨_, rfl, ?_, ?_, rfl, rfl, rfl⟩
  · exact headerGet_set_self req.headers "X-Scope-OrgID" rt.tenantID
  · intro k hk
    exact headerGet_set_ne req.headers "X-Scope-OrgID" rt.tenantID k hk

/-- C6 witness: a concrete request through the round tripper with tenant
"tenant-1". -/
theorem roundTrip_tenant_header_witness :
    ∃ req2, RoundTrip ⟨"tenant-1"⟩ delegateEx reqEx = delegateEx req2 ∧
      headerGet req2.headers "X-Scope-OrgID" = some "tenant-1" ∧
      (∀ k, k ≠ "X-Scope-OrgID" → headerGet req2.headers k = headerGet reqEx.headers k) ∧
      req2.method = reqEx.method ∧ req2.url = reqEx.url ∧ req2.body = reqEx.body :=
  roundTrip_tenant_header ⟨"tenant-1"⟩ delegateEx reqEx

end ContinuousTest
